import Mathlib

/-!
Shallow embedding of `refractor.go` (package `refractor`): the request router
(`ServeHTTP`), the single-stream fetcher (`handlePlain`), the parallel chunked
fetcher (`handleRefracted`), the retry engine (`retryRequest`) and the
single-attempt engine (`request`), together with the buffer-pool discipline
they implement.  Line numbers in doc comments refer to
`src/refractor/refractor.go`.  Machine integers (`int64`) are modelled as
`Int`; none of the verified properties exercises 64-bit overflow.  Wall-clock
time (the per-attempt context deadline) is not modelled; a deadline expiry
surfaces exactly where it does in the code, as a body-read error of one
attempt.
-/

set_option linter.unusedVariables false

namespace Refractor

/-- HTTP method of an outgoing mirror request.  The source builds only GET and
HEAD requests (`http.MethodGet`, `http.MethodHead`). -/
inductive Method
  | GET
  | HEAD
deriving DecidableEq

/-- An outgoing request as built by the source: a method, an optional
`range: bytes=start-end` header (both bounds inclusive, line 139), and whether
the `accept-encoding: identity` header was added (lines 119, 141). -/
structure Request where
  method : Method
  rangeHeader : Option (Int × Int)
  acceptEncodingIdentity : Bool
deriving DecidableEq

/-- Configuration (lines 26-29): chunk size in bytes and per-attempt timeout
(in seconds, carried for fidelity only). -/
structure Config where
  chunkSize : Int
  chunkTimeoutSeconds : Int
deriving DecidableEq

/-- Defaults (lines 31-46): a zero chunk size becomes 4 MiB (`4 << 20`), a zero
timeout becomes 5 seconds. -/
def Config.withDefaults (c : Config) : Config :=
  { chunkSize := if c.chunkSize = 0 then 4 * 2 ^ 20 else c.chunkSize,
    chunkTimeoutSeconds := if c.chunkTimeoutSeconds = 0 then 5 else c.chunkTimeoutSeconds }

/-- End bound of one chunk: the loop computes `end := start + rf.ChunkSize` and
clamps it with `if end > size { end = size }` (lines 127-130).  Note the clamp
is to `size`, not `size - 1`. -/
def chunkEnd (chunkSize size start : Int) : Int :=
  if start + chunkSize > size then size else start + chunkSize

/-- Chunk ranges produced by the partition loop of `handleRefracted`
(lines 125-145): starting from `start`, while `start < size` emit the inclusive
range `(start, chunkEnd ...)` and continue from `end + 1` (line 144).  The
guard also carries `0 < chunkSize` for termination: with a negative configured
chunk size the Go loop never terminates (`start` never advances past `size`),
and a zero chunk size is impossible after `Config.withDefaults`; in those
untaken cases this model returns `[]`. -/
def chunksFrom (chunkSize size start : Int) : List (Int × Int) :=
  if h : 0 < chunkSize ∧ start < size then
    (start, chunkEnd chunkSize size start) :: chunksFrom chunkSize size (chunkEnd chunkSize size start + 1)
  else
    []
termination_by (size - start).toNat
decreasing_by
  simp only [chunkEnd]
  split <;> omega

/-- Partition of a resource of `size` bytes, as computed by `handleRefracted`
starting from `start := int64(0)` (line 125). -/
def chunks (chunkSize size : Int) : List (Int × Int) :=
  chunksFrom chunkSize size 0

/-- The ranged GET requests built one per chunk (lines 132-142):
`range: bytes=start-end` plus `accept-encoding: identity`. -/
def chunkRequests (chunkSize size : Int) : List Request :=
  (chunks chunkSize size).map fun c =>
    { method := .GET, rangeHeader := some c, acceptEncodingIdentity := true }

/-- The HEAD probe request built by `handleRefracted` (lines 112-119): method
HEAD, no range, with `accept-encoding: identity`. -/
def probeRequest : Request :=
  { method := .HEAD, rangeHeader := none, acceptEncodingIdentity := true }

/-- The request built by `handlePlain` (line 89): a GET with no extra
headers. -/
def plainRequestFor : Request :=
  { method := .GET, rangeHeader := none, acceptEncodingIdentity := false }

/-- Outcome of the Mirror Pool exchange (`rf.Pool.Do(r)`, line 213) as one
attempt of `request` sees it: either a transport error, or a response carrying
a status code, a declared content length, and the outcome of reading its body
to EOF with `io.Copy` (line 242) — a read error (transport failure, or the
deadline watcher of lines 234-240 force-closing the body) or the bytes read.
Partial buffer writes before a mid-copy read error are not modelled; no claim
depends on them. -/
structure UpstreamResponse where
  statusCode : Nat
  contentLength : Int
  bodyRead : Except String (List Nat)

/-- A response as delivered by a successful `request` attempt.  `buffered`
records that the body was replaced by a `stats.ReaderWrapper` over a pooled
buffer with an `OnDone` completion callback (lines 251-256); for a HEAD
response the original body — empty, and already closed by the deferred
`response.Body.Close()` — is kept and `buffered` is `false`. -/
structure Response where
  statusCode : Nat
  contentLength : Int
  body : List Nat
  buffered : Bool

/-- Operations performed on the pooled `bytes.Buffer` during one attempt, in
program order: taken from the pool (`rf.buffers.Get()`, line 229), emptied
(`buf.Reset()`, line 230), and written by `io.Copy(buf, body)` (line 242). -/
inductive BufEvent
  | get
  | reset
  | write (n : Nat)
deriving DecidableEq

/-- Fate of the buffer loan of one attempt: no buffer was taken; the buffer
was wrapped into the returned body so that the `OnDone` callback `Put`s it
back once the consumer drains it (lines 251-256); or the attempt returned an
error after taking the buffer, abandoning the loan — no error path of
`request` ever calls `rf.buffers.Put`. -/
inductive BufFate
  | notAcquired
  | wrappedForReturn
  | abandoned
deriving DecidableEq

/-- Result of one attempt of `Refractor.request` (lines 202-259) together with
the observable effects the claims are about: whether the upstream body was
closed (the deferred `response.Body.Close()` at line 218 runs on every path
once a response exists), the fate of the pooled buffer, and the buffer
operations performed. -/
structure RequestOutcome where
  result : Except String Response
  bodyClosed : Bool
  bufFate : BufFate
  bufTrace : List BufEvent

/-- Expected upstream status (lines 208-211): 200, or 206 when the outgoing
request carries a `range` header. -/
def expectedStatus (r : Request) : Nat :=
  if r.rangeHeader.isSome then 206 else 200

/-- One fetch attempt, `Refractor.request` (lines 202-259): check the status
code against `expectedStatus`; return a HEAD response without buffering
(lines 224-227); otherwise take a buffer from the pool, reset it, copy the
body into it, and fail with a truncation error when the byte count differs
from the declared content length (lines 247-249); on success wrap the filled
buffer into the response body (lines 251-256). -/
def request (r : Request) (upstream : Except String UpstreamResponse) : RequestOutcome :=
  match upstream with
  | .error e =>
    { result := .error e, bodyClosed := false, bufFate := .notAcquired, bufTrace := [] }
  | .ok resp =>
    if resp.statusCode ≠ expectedStatus r then
      { result := .error ("got status " ++ toString resp.statusCode ++ ", expected "
          ++ toString (expectedStatus r)),
        bodyClosed := true, bufFate := .notAcquired, bufTrace := [] }
    else if r.method = .HEAD then
      { result := .ok { statusCode := resp.statusCode, contentLength := resp.contentLength,
                        body := [], buffered := false },
        bodyClosed := true, bufFate := .notAcquired, bufTrace := [] }
    else
      match resp.bodyRead with
      | .error e =>
        { result := .error e, bodyClosed := true, bufFate := .abandoned,
          bufTrace := [.get, .reset] }
      | .ok bs =>
        if (bs.length : Int) ≠ resp.contentLength then
          { result := .error ("expected to read bytes " ++ toString resp.contentLength
              ++ " but read " ++ toString bs.length ++ " instead"),
            bodyClosed := true, bufFate := .abandoned,
            bufTrace := [.get, .reset, .write bs.length] }
        else
          { result := .ok { statusCode := resp.statusCode, contentLength := resp.contentLength,
                            body := bs, buffered := true },
            bodyClosed := true, bufFate := .wrappedForReturn,
            bufTrace := [.get, .reset, .write bs.length] }

/-- Retry loop of `retryRequest` (lines 170-196): `attempts i` is the result of
the i-th call to `rf.request` (0-based; `try` in Go counts from 1).  A success
is delivered at once; a failure retries while tries remain (`try < retries`,
with `retries = 5`), `left` counting the remaining retries; when none remain
the error of the last attempt is delivered. -/
def retryAux (attempts : Nat → Except String Response) (tryIdx left : Nat) :
    Except String Response :=
  match attempts tryIdx, left with
  | .ok r, _ => .ok r
  | .error e, 0 => .error e
  | .error _, l + 1 => retryAux attempts (tryIdx + 1) l

/-- Value eventually delivered on the channel returned by `retryRequest`
(lines 167-200): the first success among at most 5 sequential attempts,
otherwise the error of the fifth. -/
def retryRequestResult (attempts : Nat → Except String Response) :
    Except String Response :=
  retryAux attempts 0 4

/-- Client-side `http.ResponseWriter` state.  `committed` is the status line
actually sent: Go commits it at the first explicit `WriteHeader` or implicitly
as 200 at the first body write; later `WriteHeader` calls are ignored.
`broken` models a client connection whose writes fail (an `io.Copy` towards it
errors); copying an empty body performs no write and cannot fail. -/
structure RW where
  broken : Bool
  committed : Option Nat
  headers : List (String × String)
  bodyOut : List Nat

/-- `rw.WriteHeader(s)`: commits status `s` unless a status is already
committed (then Go logs a superfluous-call warning and ignores it). -/
def RW.writeHeader (rw : RW) (s : Nat) : RW :=
  if rw.committed.isSome then rw else { rw with committed := some s }

/-- `rw.Header().Add(k, v)`. -/
def RW.addHeader (rw : RW) (k v : String) : RW :=
  { rw with headers := rw.headers ++ [(k, v)] }

/-- `io.Copy(rw, …)` of a fully-buffered body: appends the bytes and commits
status 200 if none is committed yet; returns whether the copy succeeded. -/
def RW.write (rw : RW) (bs : List Nat) : RW × Bool :=
  if bs.isEmpty then (rw, true)
  else if rw.broken then (rw, false)
  else ({ rw with committed := some (rw.committed.getD 200), bodyOut := rw.bodyOut ++ bs }, true)

/-- Status the client observes: the committed status, or 200 when the handler
returned without writing anything (net/http then sends 200). -/
def clientStatus (rw : RW) : Nat :=
  rw.committed.getD 200

/-- Body of `handlePlain` (lines 86-107) after the GET was built: the
`retryRequest` outcome is awaited; an error answers 502 Bad Gateway
(line 99); otherwise the body is copied to the client, a copy error being
only logged (lines 103-106).  `http.NewRequest` fails only on a malformed
URL and is not modelled. -/
def handlePlain (plainResult : Except String Response) (rw : RW) : RW :=
  match plainResult with
  | .error _ => rw.writeHeader 502
  | .ok resp => (rw.write resp.body).1

/-- Reassembly loop of `handleRefracted` (lines 148-164): walk the chunk
channels in ascending chunk order; a failed chunk result answers
`WriteHeader(http.StatusInternalServerError)` — i.e. 500 — and returns
(lines 150-154), as does a failed copy to the client (lines 156-161);
otherwise the chunk body is copied to the client and the loop advances.
`results i` is the value channel `i` eventually delivers; the first argument
is the number of channels left to walk, the second the index of the next one.
The second component of the result counts how many channels the loop received
from before returning. -/
def reassemble (results : Nat → Except String Response) :
    Nat → Nat → RW → RW × Nat
  | 0, _, rw => (rw, 0)
  | n + 1, i, rw =>
    match results i with
    | .error _ => (rw.writeHeader 500, 1)
    | .ok resp =>
      let wr := rw.write resp.body
      if wr.2 then
        let res := reassemble results n (i + 1) wr.1
        (res.1, res.2 + 1)
      else
        (wr.1.writeHeader 500, 1)

/-- The parallel chunked handler `handleRefracted` (lines 109-165).  `probe`
is the value the HEAD probe's `retryRequest` channel delivers; its `err` field
is never checked (lines 120-124), so on a probe failure the code dereferences
the nil `br.response` at line 124 and crashes with a nil-pointer fault before
writing anything — modelled as `none`.  Otherwise the ranged chunk requests
are launched, the probed content length is emitted verbatim as the
`content-length` header (line 147), and the reassembly loop runs, `results i`
being the value chunk channel `i` eventually delivers.  `http.NewRequest`
fails only on a malformed URL and is not modelled. -/
def handleRefracted (cfg : Config) (probe : Except String Response)
    (results : Nat → Except String Response) (rw : RW) : Option (RW × Nat) :=
  match probe with
  | .error _ => none
  | .ok presp =>
    some (reassemble results (chunkRequests cfg.chunkSize presp.contentLength).length 0
      (rw.addHeader "content-length" (toString presp.contentLength)))

/-- Go `strings.HasSuffix`, on the character sequences of the strings (byte
and character suffixes coincide on the ASCII suffixes the router tests). -/
def goHasSuffix (s suffix : String) : Bool :=
  suffix.data.isSuffixOf s.data

/-- Serialisation `r.URL.String()` of an inbound server request URL: for
server-side requests only the path and the query are set, so the string is
the path followed by `?query` when a query string is present. -/
def urlString (path query : String) : String :=
  path ++ (if query = "" then "" else "?" ++ query)

/-- The three dispatch targets of `ServeHTTP`. -/
inductive Route
  | notFound
  | plain
  | refracted
deriving DecidableEq

/-- Classification performed by `ServeHTTP` (lines 65-84) on
`url := r.URL.String()`: a `.db.sig` suffix answers 404 with no upstream
call, a `.db` suffix goes to the single-stream fetcher, anything else is
refracted across mirrors. -/
def route (path query : String) : Route :=
  if goHasSuffix (urlString path query) ".db.sig" then .notFound
  else if goHasSuffix (urlString path query) ".db" then .plain
  else .refracted

/-- `ServeHTTP` (lines 65-84): dispatch on `route`.  The upstream inputs are
consulted only by the handler actually dispatched to. -/
def serveHTTP (path query : String) (cfg : Config)
    (plainResult : Except String Response) (probe : Except String Response)
    (results : Nat → Except String Response) (rw : RW) : Option RW :=
  match route path query with
  | .notFound => some (rw.writeHeader 404)
  | .plain => some (handlePlain plainResult rw)
  | .refracted => (handleRefracted cfg probe results rw).map Prod.fst

/-- Modelled from Go channel semantics for the unbuffered channel created at
line 168 (`respChan := make(chan responseErr)`): the producer goroutine's
single send (lines 184 or 191) completes exactly when the consumer receives
from that channel.  The reassembly loop receives from channels
`0 .. recvd - 1` and from no other, so a send on channel `i` completes iff
`i < recvd`; otherwise the goroutine blocks on the send forever. -/
def sendCompletes (recvd i : Nat) : Prop := i < recvd

/-- Modelled from the spec: `stats.ReaderWrapper` (package `stats`, not under
src/) is a read-completion byte counter that fires its `OnDone` callback
exactly once, when the wrapped reader has been fully drained by its consumer;
the callback installed at lines 253-255 then `Put`s the backing buffer into
the pool.  A loan therefore sees exactly one `Put` when it was wrapped into a
response body and that body was fully drained, and zero `Put`s otherwise —
in particular zero on every error path of `request`, which abandons the
buffer it acquired. -/
def putsForLoan (fate : BufFate) (fullyDrained : Bool) : Nat :=
  match fate with
  | .wrappedForReturn => if fullyDrained then 1 else 0
  | _ => 0

/-- Scans a buffer trace checking that every `write` is preceded by a `reset`
with no intervening `get`: the loan is emptied before bytes are written. -/
def resetBeforeWritesFrom (haveReset : Bool) : List BufEvent → Bool
  | [] => true
  | .get :: rest => resetBeforeWritesFrom false rest
  | .reset :: rest => resetBeforeWritesFrom true rest
  | .write _ :: rest => haveReset && resetBeforeWritesFrom haveReset rest

/-- A trace in which each buffer write happens only after a reset. -/
def resetBeforeWrites (t : List BufEvent) : Bool :=
  resetBeforeWritesFrom false t

/-- Boolean check that a chunk list starts exactly at `s0`, every chunk's
start is at most its end, and each later chunk starts right after the
previous chunk's end. -/
def contiguousFromB (s0 : Int) : List (Int × Int) → Bool
  | [] => true
  | c :: rest => decide (c.1 = s0) && decide (c.1 ≤ c.2) && contiguousFromB (c.2 + 1) rest

/-- Concatenation of the bodies of chunk responses `i, i+1, …, i+j-1` in
ascending chunk order. -/
def bodiesConcat (resps : Nat → Response) (i j : Nat) : List Nat :=
  ((List.range' i j).map fun t => (resps t).body).flatten

/-- Partition facts that hold of the chunk loop for a positive resource size
and chunk size: there are `⌈size / (chunkSize + 1)⌉` chunks; the inclusive
ranges start at 0, are contiguous (each next start is the previous end plus
one) and nonempty; every end equals `min (start + chunkSize) size` — so each
chunk spans `chunkSize + 1` bytes except the clamped last one; all ranges lie
within `[0, size]` (the last requested end may be `size`, one past the final
byte); and every byte of `[0, size)` lies in exactly one chunk's range. -/
def chunksPartitionOK (chunkSize size : Int) : Prop :=
  (chunks chunkSize size).length = ((size + chunkSize) / (chunkSize + 1)).toNat
  ∧ contiguousFromB 0 (chunks chunkSize size) = true
  ∧ (∀ c ∈ chunks chunkSize size, c.2 = min (c.1 + chunkSize) size)
  ∧ (∀ c ∈ chunks chunkSize size, 0 ≤ c.1 ∧ c.2 ≤ size)
  ∧ (∀ b : Int, 0 ≤ b → b < size →
      (chunks chunkSize size).countP (fun c => decide (c.1 ≤ b ∧ b ≤ c.2)) = 1)

/-! ### Helper lemmas about the partition loop -/

theorem chunksFrom_pos {chunkSize size start : Int} (h1 : 0 < chunkSize) (h2 : start < size) :
    chunksFrom chunkSize size start =
      (start, chunkEnd chunkSize size start)
        :: chunksFrom chunkSize size (chunkEnd chunkSize size start + 1) := by
  rw [chunksFrom.eq_def, dif_pos ⟨h1, h2⟩]

theorem chunksFrom_neg {chunkSize size start : Int} (h : ¬ (0 < chunkSize ∧ start < size)) :
    chunksFrom chunkSize size start = [] := by
  rw [chunksFrom.eq_def, dif_neg h]

theorem chunkEnd_eq_min (chunkSize size start : Int) :
    chunkEnd chunkSize size start = min (start + chunkSize) size := by
  unfold chunkEnd
  split <;> omega

theorem chunkEnd_gt {chunkSize size start : Int} (h1 : 0 < chunkSize) (h2 : start < size) :
    start < chunkEnd chunkSize size start := by
  unfold chunkEnd
  split <;> omega

theorem chunkEnd_le (chunkSize size start : Int) (h2 : start < size) :
    chunkEnd chunkSize size start ≤ size := by
  unfold chunkEnd
  split <;> omega

theorem chunksFrom_contig_fuel (chunkSize size : Int) (h1 : 0 < chunkSize) :
    ∀ m : Nat, ∀ start : Int, (size - start).toNat ≤ m →
      contiguousFromB start (chunksFrom chunkSize size start) = true := by
  intro m
  induction m with
  | zero =>
    intro start hm
    rw [chunksFrom_neg (by omega)]
    rfl
  | succ m ih =>
    intro start hm
    by_cases hs : start < size
    · have hgt := chunkEnd_gt h1 hs
      have hle := chunkEnd_le chunkSize size start hs
      rw [chunksFrom_pos h1 hs]
      simp only [contiguousFromB, Bool.and_eq_true, decide_eq_true_eq]
      exact ⟨⟨by simp, by omega⟩, ih _ (by omega)⟩
    · rw [chunksFrom_neg (by omega)]
      rfl

theorem chunksFrom_start_le_fuel (chunkSize size : Int) (h1 : 0 < chunkSize) :
    ∀ m : Nat, ∀ start : Int, (size - start).toNat ≤ m →
      ∀ c ∈ chunksFrom chunkSize size start, start ≤ c.1 := by
  intro m
  induction m with
  | zero =>
    intro start hm
    rw [chunksFrom_neg (by omega)]
    intro c hc
    cases hc
  | succ m ih =>
    intro start hm
    by_cases hs : start < size
    · have hgt := chunkEnd_gt h1 hs
      rw [chunksFrom_pos h1 hs]
      intro c hc
      rcases List.mem_cons.mp hc with rfl | hc
      · exact le_refl _
      · have := ih (chunkEnd chunkSize size start + 1) (by omega) c hc
        omega
    · rw [chunksFrom_neg (by omega)]
      intro c hc
      cases hc

theorem chunksFrom_ends_fuel (chunkSize size : Int) (h1 : 0 < chunkSize) :
    ∀ m : Nat, ∀ start : Int, (size - start).toNat ≤ m →
      ∀ c ∈ chunksFrom chunkSize size start, c.2 = min (c.1 + chunkSize) size := by
  intro m
  induction m with
  | zero =>
    intro start hm
    rw [chunksFrom_neg (by omega)]
    intro c hc
    cases hc
  | succ m ih =>
    intro start hm
    by_cases hs : start < size
    · have hgt := chunkEnd_gt h1 hs
      rw [chunksFrom_pos h1 hs]
      intro c hc
      rcases List.mem_cons.mp hc with rfl | hc
      · exact chunkEnd_eq_min chunkSize size start
      · exact ih (chunkEnd chunkSize size start + 1) (by omega) c hc
    · rw [chunksFrom_neg (by omega)]
      intro c hc
      cases hc

theorem chunksFrom_length_fuel (chunkSize size : Int) (h1 : 0 < chunkSize) :
    ∀ m : Nat, ∀ start : Int, (size - start).toNat ≤ m →
      (chunksFrom chunkSize size start).length = ((size - start + chunkSize) / (chunkSize + 1)).toNat := by
  intro m
  have hc1 : (0 : Int) < chunkSize + 1 := by omega
  induction m with
  | zero =>
    intro start hm
    rw [chunksFrom_neg (by omega)]
    have hx : size - start + chunkSize < chunkSize + 1 := by omega
    by_cases h0 : 0 ≤ size - start + chunkSize
    · rw [Int.ediv_eq_zero_of_lt h0 hx]
      rfl
    · have : (size - start + chunkSize) / (chunkSize + 1) < 0 :=
        Int.ediv_neg' (by omega) hc1
      simp [List.length_nil, Int.toNat_eq_zero.mpr (le_of_lt this)]
  | succ m ih =>
    intro start hm
    by_cases hs : start < size
    · have hgt := chunkEnd_gt h1 hs
      have hle := chunkEnd_le chunkSize size start hs
      rw [chunksFrom_pos h1 hs]
      rw [List.length_cons, ih (chunkEnd chunkSize size start + 1) (by omega)]
      rw [chunkEnd_eq_min] at *
      by_cases hclamp : start + chunkSize ≥ size
      · have he : min (start + chunkSize) size = size := by omega
        rw [he]
        have h01 : size - (size + 1) + chunkSize = chunkSize - 1 := by ring
        rw [h01, Int.ediv_eq_zero_of_lt (by omega) (by omega)]
        have hX : size - start + chunkSize = (size - start - 1) + (chunkSize + 1) * 1 := by ring
        rw [hX, Int.add_mul_ediv_left _ _ (by omega : chunkSize + 1 ≠ 0)]
        rw [Int.ediv_eq_zero_of_lt (by omega) (by omega)]
        rfl
      · have he : min (start + chunkSize) size = start + chunkSize := by omega
        rw [he]
        have h01 : size - (start + chunkSize + 1) + chunkSize = size - start - 1 := by ring
        rw [h01]
        have hX : size - start + chunkSize = (size - start - 1) + (chunkSize + 1) * 1 := by ring
        rw [hX, Int.add_mul_ediv_left _ _ (by omega : chunkSize + 1 ≠ 0)]
        have hq : 0 ≤ (size - start - 1) / (chunkSize + 1) :=
          Int.ediv_nonneg (by omega) (by omega)
        omega
    · rw [chunksFrom_neg (by omega)]
      have hx : size - start + chunkSize < chunkSize + 1 := by omega
      by_cases h0 : 0 ≤ size - start + chunkSize
      · rw [Int.ediv_eq_zero_of_lt h0 hx]
        rfl
      · have : (size - start + chunkSize) / (chunkSize + 1) < 0 :=
          Int.ediv_neg' (by omega) hc1
        simp [Int.toNat_eq_zero.mpr (le_of_lt this)]

theorem chunksFrom_cover_fuel (chunkSize size : Int) (h1 : 0 < chunkSize) :
    ∀ m : Nat, ∀ start : Int, (size - start).toNat ≤ m →
      ∀ b : Int, start ≤ b → b < size →
        (chunksFrom chunkSize size start).countP (fun c => decide (c.1 ≤ b ∧ b ≤ c.2)) = 1 := by
  intro m
  induction m with
  | zero =>
    intro start hm b hb1 hb2
    omega
  | succ m ih =>
    intro start hm b hb1 hb2
    have hs : start < size := by omega
    have hgt := chunkEnd_gt h1 hs
    have hle := chunkEnd_le chunkSize size start hs
    rw [chunksFrom_pos h1 hs, List.countP_cons]
    by_cases hin : b ≤ chunkEnd chunkSize size start
    · have hrest : (chunksFrom chunkSize size (chunkEnd chunkSize size start + 1)).countP
          (fun c => decide (c.1 ≤ b ∧ b ≤ c.2)) = 0 := by
        rw [List.countP_eq_zero]
        intro c hc
        have := chunksFrom_start_le_fuel chunkSize size h1
          (size - (chunkEnd chunkSize size start + 1)).toNat _ le_rfl c hc
        simp only [decide_eq_true_eq]
        omega
      rw [hrest, if_pos (by simp only [decide_eq_true_eq]; exact ⟨hb1, hin⟩)]
    · have hrec := ih (chunkEnd chunkSize size start + 1) (by omega) b (by omega) hb2
      rw [hrec, if_neg (by simp only [decide_eq_true_eq]; exact fun h => hin h.2)]

theorem chunks_ascending_fuel (chunkSize size : Int) (h1 : 0 < chunkSize) :
    ∀ m : Nat, ∀ start : Int, (size - start).toNat ≤ m →
      List.Chain' (fun a b : Int × Int => a.1 < b.1) (chunksFrom chunkSize size start) := by
  intro m
  induction m with
  | zero =>
    intro start hm
    rw [chunksFrom_neg (by omega)]
    exact List.chain'_nil
  | succ m ih =>
    intro start hm
    by_cases hs : start < size
    · have hgt := chunkEnd_gt h1 hs
      rw [chunksFrom_pos h1 hs]
      have hrest := ih (chunkEnd chunkSize size start + 1) (by omega)
      rcases hrec : chunksFrom chunkSize size (chunkEnd chunkSize size start + 1) with _ | ⟨d, t⟩
      · simp
      · rw [hrec] at hrest
        refine List.chain'_cons.mpr ⟨?_, hrest⟩
        have hd := chunksFrom_start_le_fuel chunkSize size h1
          (size - (chunkEnd chunkSize size start + 1)).toNat _ le_rfl d (by rw [hrec]; exact List.mem_cons_self d t)
        show start < d.1
        omega
    · rw [chunksFrom_neg (by omega)]
      exact List.chain'_nil

/-- Ascending start offsets: each chunk's start is strictly below the next. -/
theorem chunks_starts_ascending {chunkSize size : Int} (h1 : 0 < chunkSize) :
    List.Chain' (fun a b : Int × Int => a.1 < b.1) (chunks chunkSize size) :=
  chunks_ascending_fuel chunkSize size h1 (size - 0).toNat 0 le_rfl

/-! ### Concrete evaluations of the partition -/

theorem chunks_4_10 : chunks 4 10 = [(0, 4), (5, 9)] := by
  unfold chunks
  rw [chunksFrom_pos (by norm_num) (by norm_num)]
  norm_num [chunkEnd]
  rw [chunksFrom_pos (by norm_num) (by norm_num)]
  norm_num [chunkEnd]
  rw [chunksFrom_neg (by norm_num)]

theorem chunks_3_5 : chunks 3 5 = [(0, 3), (4, 5)] := by
  unfold chunks
  rw [chunksFrom_pos (by norm_num) (by norm_num)]
  norm_num [chunkEnd]
  rw [chunksFrom_pos (by norm_num) (by norm_num)]
  norm_num [chunkEnd]
  rw [chunksFrom_neg (by norm_num)]

theorem chunks_default_10MiB : chunks 4194304 10485760 =
    [(0, 4194304), (4194305, 8388609), (8388610, 10485760)] := by
  unfold chunks
  rw [chunksFrom_pos (by norm_num) (by norm_num)]
  norm_num [chunkEnd]
  rw [chunksFrom_pos (by norm_num) (by norm_num)]
  norm_num [chunkEnd]
  rw [chunksFrom_pos (by norm_num) (by norm_num)]
  norm_num [chunkEnd]
  rw [chunksFrom_neg (by norm_num)]

theorem chunkRequests_3_5_length : (chunkRequests 3 5).length = 2 := by
  rw [chunkRequests, chunks_3_5]
  rfl

/-! ### Claim C1 -/

/-- C1 (amended): for every resource size `S > 0` and chunk size `C > 0` the
partition computed by `handleRefracted` produces `⌈S / (C + 1)⌉` chunks (not
`⌈S / C⌉`): inclusive ranges starting at 0, contiguous and non-overlapping,
each end equal to `min (start + C) S` — so each chunk spans `C + 1` bytes
except the clamped last one, whose requested end may be `S` itself, one past
`S - 1` — and every byte of `[0, S)` lies in exactly one chunk's range. -/
theorem C1_amended (chunkSize size : Int) (hC : 0 < chunkSize) (hS : 0 < size) :
    chunksPartitionOK chunkSize size := by
  refine ⟨?_, ?_, ?_, ?_, ?_⟩
  · have h := chunksFrom_length_fuel chunkSize size hC (size - 0).toNat 0 le_rfl
    rw [chunks, h]
    norm_num
  · exact chunksFrom_contig_fuel chunkSize size hC (size - 0).toNat 0 le_rfl
  · exact fun c hc => chunksFrom_ends_fuel chunkSize size hC (size - 0).toNat 0 le_rfl c hc
  · intro c hc
    refine ⟨chunksFrom_start_le_fuel chunkSize size hC (size - 0).toNat 0 le_rfl c hc, ?_⟩
    have h := chunksFrom_ends_fuel chunkSize size hC (size - 0).toNat 0 le_rfl c hc
    rw [h]
    exact min_le_right _ _
  · intro b hb1 hb2
    exact chunksFrom_cover_fuel chunkSize size hC (size - 0).toNat 0 le_rfl b hb1 hb2

/-- C1 counterexample: with the default 4 MiB chunk size and a 10 MiB
resource, the computed chunks are `[0,4194304]`, `[4194305,8388609]`,
`[8388610,10485760]` — not the claimed `[0,4194303]`, `[4194304,8388607]`,
`[8388608,10485759]` — and with `S = 10`, `C = 4` the loop produces 2 chunks,
not `⌈10/4⌉ = 3`. -/
theorem C1_counterexample :
    chunks 4194304 10485760 = [(0, 4194304), (4194305, 8388609), (8388610, 10485760)]
    ∧ chunks 4194304 10485760 ≠ [(0, 4194303), (4194304, 8388607), (8388608, 10485759)]
    ∧ (chunks 4 10).length ≠ 3 := by
  refine ⟨chunks_default_10MiB, ?_, ?_⟩
  · rw [chunks_default_10MiB]
    decide
  · rw [chunks_4_10]
    decide

/-- Witness for C1's amended theorem at `C = 4`, `S = 10`. -/
theorem C1_witness : (0 : Int) < 4 ∧ (0 : Int) < 10 ∧ chunksPartitionOK 4 10 :=
  ⟨by decide, by decide, C1_amended 4 10 (by decide) (by decide)⟩

/-! ### Helper lemmas about the client writer and the reassembly loop -/

theorem RW.write_not_broken (rw : RW) (bs : List Nat) (h : rw.broken = false) :
    rw.write bs = ({ rw with committed := if bs.isEmpty then rw.committed else some (rw.committed.getD 200), bodyOut := rw.bodyOut ++ bs }, true) := by
  cases bs with
  | nil => simp [RW.write]
  | cons x xs => simp [RW.write, h]

theorem bodiesConcat_zero (resps : Nat → Response) (i : Nat) : bodiesConcat resps i 0 = [] :=
  rfl

theorem bodiesConcat_succ (resps : Nat → Response) (i n : Nat) :
    bodiesConcat resps i (n + 1) = (resps i).body ++ bodiesConcat resps (i + 1) n := by
  simp [bodiesConcat, List.range'_succ]

/-- An all-successful walk of `n` chunk channels appends the chunk bodies in
chunk order, receives from all `n` channels, and commits status 200 at the
first nonempty body. -/
theorem reassemble_ok (results : Nat → Except String Response) (resps : Nat → Response) :
    ∀ n i rw, rw.broken = false →
      (∀ t, t < n → results (i + t) = Except.ok (resps (i + t))) →
      reassemble results n i rw =
        ({ rw with committed := if (bodiesConcat resps i n).isEmpty then rw.committed else some (rw.committed.getD 200), bodyOut := rw.bodyOut ++ bodiesConcat resps i n }, n) := by
  intro n
  induction n with
  | zero =>
    intro i rw hb hok
    simp [reassemble, bodiesConcat]
  | succ n ih =>
    intro i rw hb hok
    have h0 : results i = Except.ok (resps i) := by
      have h := hok 0 (Nat.succ_pos n)
      simpa using h
    have hok1 : ∀ t, t < n → results (i + 1 + t) = Except.ok (resps (i + 1 + t)) := by
      intro t ht
      have h := hok (t + 1) (by omega)
      have he : i + (t + 1) = i + 1 + t := by omega
      rw [he] at h
      exact h
    simp only [reassemble, h0]
    rw [RW.write_not_broken rw (resps i).body hb]
    simp only [if_true]
    rw [ih (i + 1) { rw with committed := if (resps i).body.isEmpty then rw.committed else some (rw.committed.getD 200), bodyOut := rw.bodyOut ++ (resps i).body } hb hok1]
    rw [bodiesConcat_succ]
    by_cases hbe : (resps i).body.isEmpty
    · have hnil : (resps i).body = [] := List.isEmpty_iff.mp hbe
      simp [hnil]
    · have hne : ((resps i).body ++ bodiesConcat resps (i + 1) n).isEmpty = false := by
        cases hx : (resps i).body with
        | nil => rw [hx] at hbe; simp at hbe
        | cons a t => simp [hx]
      simp [hbe, hne, List.append_assoc]

/-- A walk that hits its first failed chunk at relative position `j` appends
exactly the bodies of the `j` preceding chunks, answers `WriteHeader(500)`,
and has received from exactly `j + 1` channels. -/
theorem reassemble_fail (results : Nat → Except String Response) (resps : Nat → Response) (e : String) :
    ∀ j n i rw, rw.broken = false → j < n →
      (∀ t, t < j → results (i + t) = Except.ok (resps (i + t))) →
      results (i + j) = Except.error e →
      reassemble results n i rw =
        ({ rw with committed := if rw.committed.isSome then rw.committed else (if (bodiesConcat resps i j).isEmpty then some 500 else some 200), bodyOut := rw.bodyOut ++ bodiesConcat resps i j }, j + 1) := by
  intro j
  induction j with
  | zero =>
    intro n i rw hb hn hok hfail
    cases n with
    | zero => omega
    | succ n =>
      have h0 : results i = Except.error e := by simpa using hfail
      simp only [reassemble, h0]
      unfold RW.writeHeader
      by_cases hc : rw.committed.isSome
      · simp [hc, bodiesConcat]
      · simp [hc, bodiesConcat]
  | succ j ih =>
    intro n i rw hb hn hok hfail
    cases n with
    | zero => omega
    | succ n =>
      have h0 : results i = Except.ok (resps i) := by
        have h := hok 0 (Nat.succ_pos j)
        simpa using h
      have hok1 : ∀ t, t < j → results (i + 1 + t) = Except.ok (resps (i + 1 + t)) := by
        intro t ht
        have h := hok (t + 1) (by omega)
        have he : i + (t + 1) = i + 1 + t := by omega
        rw [he] at h
        exact h
      have hfail1 : results (i + 1 + j) = Except.error e := by
        have he : i + (j + 1) = i + 1 + j := by omega
        rw [he] at hfail
        exact hfail
      simp only [reassemble, h0]
      rw [RW.write_not_broken rw (resps i).body hb]
      simp only [if_true]
      rw [ih n (i + 1) { rw with committed := if (resps i).body.isEmpty then rw.committed else some (rw.committed.getD 200), bodyOut := rw.bodyOut ++ (resps i).body } hb (by omega) hok1 hfail1]
      rw [bodiesConcat_succ]
      by_cases hbe : (resps i).body.isEmpty
      · have hnil : (resps i).body = [] := List.isEmpty_iff.mp hbe
        simp [hnil]
      · have hne : ((resps i).body ++ bodiesConcat resps (i + 1) j).isEmpty = false := by
          cases hx : (resps i).body with
          | nil => rw [hx] at hbe; simp at hbe
          | cons a t => simp [hx]
        by_cases hc : rw.committed.isSome
        · obtain ⟨s, hs⟩ := Option.isSome_iff_exists.mp hc
          simp [hbe, hne, hs, List.append_assoc]
        · have hnone : rw.committed = none := Option.not_isSome_iff_eq_none.mp hc
          simp [hbe, hne, hnone, List.append_assoc]

/-! ### Helper lemmas about the retry loop and channel lookup -/

theorem retryAux_error_step (attempts : Nat → Except String Response) (i l : Nat) (e : String)
    (h : attempts i = Except.error e) :
    retryAux attempts i (l + 1) = retryAux attempts (i + 1) l := by
  conv_lhs => rw [retryAux.eq_def]
  rw [h]

theorem retryAux_all_fail (attempts : Nat → Except String Response)
    (h : ∀ t, ∃ e, attempts t = Except.error e) :
    ∀ l i, retryAux attempts i l = attempts (i + l) := by
  intro l
  induction l with
  | zero =>
    intro i
    obtain ⟨e, he⟩ := h i
    simp [retryAux, he]
  | succ l ih =>
    intro i
    obtain ⟨e, he⟩ := h i
    rw [retryAux_error_step attempts i l e he, ih (i + 1)]
    congr 1
    omega

/-- When all five attempts fail, the retry engine delivers the error of the
fifth (index 4) attempt. -/
theorem retryRequestResult_all_fail (attempts : Nat → Except String Response)
    (h : ∀ t, ∃ e, attempts t = Except.error e) :
    retryRequestResult attempts = attempts 4 := by
  unfold retryRequestResult
  rw [retryAux_all_fail attempts h 4 0]

/-- Association-list lookup finds the unique binding when keys are nodup. -/
theorem lookup_of_mem_nodupkeys {β : Type} (l : List (Nat × β)) (i : Nat) (v : β)
    (hnd : (l.map Prod.fst).Nodup) (hm : (i, v) ∈ l) : l.lookup i = some v := by
  induction l with
  | nil => cases hm
  | cons a t ih =>
    obtain ⟨k, w⟩ := a
    simp only [List.map_cons, List.nodup_cons] at hnd
    rcases List.mem_cons.mp hm with heq | hmem
    · injection heq with h1 h2
      subst h1
      subst h2
      simp [List.lookup]
    · have hik : i ≠ k := by
        rintro rfl
        exact hnd.1 (List.mem_map.mpr ⟨(i, v), hmem, rfl⟩)
      have hbeq : (i == k) = false := beq_eq_false_iff_ne.mpr hik
      simp only [List.lookup, hbeq]
      exact ih hnd.2 hmem

/-! ### Shared concrete inputs for witnesses and counterexamples -/

/-- A fresh client connection: accepting writes, nothing committed. -/
def rw00 : RW := { broken := false, committed := none, headers := [], bodyOut := [] }

/-- A probe response declaring a 5-byte resource. -/
def presp5 : Response := { statusCode := 200, contentLength := 5, body := [], buffered := false }

/-- A probe response with unknown content length (`ContentLength = -1`). -/
def prespUnknown : Response :=
  { statusCode := 200, contentLength := -1, body := [], buffered := false }

/-- A buffered 2-byte chunk response. -/
def respA : Response := { statusCode := 206, contentLength := 2, body := [10, 20], buffered := true }

/-- A buffered 1-byte chunk response. -/
def respB : Response := { statusCode := 206, contentLength := 1, body := [30], buffered := true }

/-- Chunk responses for a two-chunk resource: chunk 0 is `respA`, the rest
`respB`. -/
def resps25 : Nat → Response := fun i => if i = 0 then respA else respB

/-! ### Claim C2 -/

/-- C2 (confirmed): for every set of chunk bodies and every completion order
(modelled as a permutation `arrivals` of the per-channel results; each chunk's
channel delivers that chunk's own result no matter when it completes), the
bytes `handleRefracted` writes to the client are exactly the concatenation of
the chunk bodies in ascending chunk order — the reassembly loop walks the
channels strictly in chunk order, and chunk starts are strictly ascending
along that order. -/
theorem C2_ordered_reassembly (cfg : Config) (presp : Response) (resps : Nat → Response)
    (arrivals : List (Nat × Except String Response)) (rw : RW)
    (hC : 0 < cfg.chunkSize) (hrw : rw.broken = false)
    (hperm : arrivals.Perm ((List.range (chunkRequests cfg.chunkSize presp.contentLength).length).map
      fun i => (i, Except.ok (resps i)))) :
    handleRefracted cfg (Except.ok presp) (fun i => (arrivals.lookup i).getD (Except.error "unread")) rw
      = some ({ rw with headers := rw.headers ++ [("content-length", toString presp.contentLength)], committed := if (bodiesConcat resps 0 (chunkRequests cfg.chunkSize presp.contentLength).length).isEmpty then rw.committed else some (rw.committed.getD 200), bodyOut := rw.bodyOut ++ bodiesConcat resps 0 (chunkRequests cfg.chunkSize presp.contentLength).length }, (chunkRequests cfg.chunkSize presp.contentLength).length)
    ∧ List.Chain' (fun a b : Int × Int => a.1 < b.1) (chunks cfg.chunkSize presp.contentLength) := by
  constructor
  · have hnd : (arrivals.map Prod.fst).Nodup := by
      have hp := List.Perm.map Prod.fst hperm
      rw [List.Perm.nodup_iff hp]
      have hmm : (((List.range (chunkRequests cfg.chunkSize presp.contentLength).length).map
          fun i => (i, (Except.ok (resps i) : Except String Response))).map Prod.fst)
          = List.range (chunkRequests cfg.chunkSize presp.contentLength).length := by
        simp [List.map_map, Function.comp_def]
      rw [hmm]
      exact List.nodup_range _
    have hok : ∀ t, t < (chunkRequests cfg.chunkSize presp.contentLength).length →
        (fun i => (arrivals.lookup i).getD (Except.error "unread")) (0 + t)
          = Except.ok (resps (0 + t)) := by
      intro t ht
      have hmem : (t, Except.ok (resps t)) ∈ arrivals := by
        apply hperm.mem_iff.mpr
        exact List.mem_map.mpr ⟨t, List.mem_range.mpr ht, rfl⟩
      have hl := lookup_of_mem_nodupkeys arrivals t (Except.ok (resps t)) hnd hmem
      simp only [Nat.zero_add, hl, Option.getD_some]
    simp only [handleRefracted]
    rw [reassemble_ok _ resps _ 0 (rw.addHeader "content-length" (toString presp.contentLength))
      (show (RW.addHeader rw "content-length" (toString presp.contentLength)).broken = false from hrw) hok]
    rfl
  · exact chunks_starts_ascending hC

/-- Witness for C2: a 5-byte resource split in two chunks whose results
arrive in reversed completion order still yields the in-order body
`[10, 20, 30]`. -/
theorem C2_witness :
    handleRefracted ⟨3, 5⟩ (Except.ok presp5)
        (fun i => (([(1, Except.ok respB), (0, Except.ok respA)].lookup i).getD (Except.error "unread"))) rw00
      = some ({ rw00 with headers := [("content-length", "5")], committed := some 200, bodyOut := [10, 20, 30] }, 2) := by
  have hlen : (chunkRequests (Config.mk 3 5).chunkSize presp5.contentLength).length = 2 :=
    chunkRequests_3_5_length
  have hperm : List.Perm
      ([(1, Except.ok respB), (0, Except.ok respA)] : List (Nat × Except String Response))
      ((List.range (chunkRequests (Config.mk 3 5).chunkSize presp5.contentLength).length).map
        fun i => (i, (Except.ok (resps25 i) : Except String Response))) := by
    rw [hlen]
    exact List.Perm.swap (0, Except.ok respA) (1, Except.ok respB) []
  have h := (C2_ordered_reassembly ⟨3, 5⟩ presp5 resps25
    [(1, Except.ok respB), (0, Except.ok respA)] rw00 (by decide) rfl hperm).1
  rw [h, hlen]
  rfl

/-! ### Claim C3 -/

/-- C3 (code_bug behaviour): when the HEAD probe's `retryRequest` result
carries an error, `handleRefracted` does not answer 502 Bad Gateway — it never
checks `br.err` and reads `br.response.ContentLength` from the nil response
(line 124), crashing with a nil-pointer fault before writing any status; the
model yields `none` (no response at all). -/
theorem C3_probe_failure_crash :
    handleRefracted { chunkSize := 4194304, chunkTimeoutSeconds := 5 }
      (Except.error "connection refused") (fun _ => Except.error "connection refused") rw00
      = none :=
  rfl

/-! ### Claim C4 -/

/-- C4 (amended): if a chunk's fetch fails on all 5 retry attempts, the
reassembly loop stops at that chunk after flushing exactly the earlier
chunks' bodies — no bytes beyond previously flushed chunks are written — and
calls `WriteHeader(500)` (`http.StatusInternalServerError`), not 502: the
client observes status 500 when no chunk bytes were flushed yet, and a
truncated status-200 response otherwise. -/
theorem C4_amended (cfg : Config) (presp : Response) (resps : Nat → Response)
    (results : Nat → Except String Response) (atts : Nat → Except String Response)
    (rw : RW) (j : Nat)
    (hrw : rw.broken = false) (hcom : rw.committed = none)
    (hj : j < (chunkRequests cfg.chunkSize presp.contentLength).length)
    (hok : ∀ t, t < j → results t = Except.ok (resps t))
    (hatts : ∀ t, ∃ e, atts t = Except.error e)
    (hres : results j = retryRequestResult atts) :
    (∃ e, results j = Except.error e)
    ∧ handleRefracted cfg (Except.ok presp) results rw =
        some ({ rw with headers := rw.headers ++ [("content-length", toString presp.contentLength)], committed := some (if (bodiesConcat resps 0 j).isEmpty then 500 else 200), bodyOut := rw.bodyOut ++ bodiesConcat resps 0 j }, j + 1)
    ∧ (if (bodiesConcat resps 0 j).isEmpty then 500 else 200) ≠ 502 := by
  obtain ⟨e4, he4⟩ := hatts 4
  have herr : results j = Except.error e4 := by
    rw [hres, retryRequestResult_all_fail atts hatts, he4]
  refine ⟨⟨e4, herr⟩, ?_, ?_⟩
  · have hok0 : ∀ t, t < j → results (0 + t) = Except.ok (resps (0 + t)) := by
      intro t ht
      rw [Nat.zero_add]
      exact hok t ht
    have herr0 : results (0 + j) = Except.error e4 := by
      rw [Nat.zero_add]
      exact herr
    simp only [handleRefracted]
    rw [reassemble_fail results resps e4 j _ 0
      (rw.addHeader "content-length" (toString presp.contentLength))
      (show (RW.addHeader rw "content-length" (toString presp.contentLength)).broken = false from hrw)
      hj hok0 herr0]
    simp [RW.addHeader, hcom, apply_ite]
  · split <;> decide

/-- C4 counterexample: a 5-byte resource split in two chunks whose first
chunk fails on all five retry attempts: the handler commits status 500
Internal Server Error — not the claimed 502 Bad Gateway. -/
theorem C4_counterexample :
    handleRefracted ⟨3, 5⟩ (Except.ok presp5)
        (fun i => if i = 0 then retryRequestResult (fun _ => Except.error "down") else Except.ok respA)
        rw00
      = some ({ rw00 with headers := [("content-length", "5")], committed := some 500 }, 1)
    ∧ clientStatus { rw00 with headers := [("content-length", "5")], committed := some 500 } = 500
    ∧ (500 : Nat) ≠ 502 := by
  have hlen : (chunkRequests (Config.mk 3 5).chunkSize presp5.contentLength).length = 2 :=
    chunkRequests_3_5_length
  refine ⟨?_, rfl, by decide⟩
  simp only [handleRefracted]
  rw [hlen]
  rfl

/-- Witness for C4: two chunks, the first one failing on all five attempts;
the handler returns after receiving one channel, with status 500 and an empty
body. -/
theorem C4_witness :
    (0 : Nat) < (chunkRequests (Config.mk 3 5).chunkSize presp5.contentLength).length
    ∧ handleRefracted ⟨3, 5⟩ (Except.ok presp5)
        (fun _ => retryRequestResult fun _ => Except.error "refused") rw00
      = some ({ rw00 with headers := [("content-length", "5")], committed := some 500 }, 1) := by
  have hlen : (chunkRequests (Config.mk 3 5).chunkSize presp5.contentLength).length = 2 :=
    chunkRequests_3_5_length
  have hpos : (0 : Nat) < (chunkRequests (Config.mk 3 5).chunkSize presp5.contentLength).length := by
    rw [hlen]
    decide
  refine ⟨hpos, ?_⟩
  have h := (C4_amended ⟨3, 5⟩ presp5 (fun _ => respA)
    (fun _ => retryRequestResult fun _ => Except.error "refused")
    (fun _ => Except.error "refused") rw00 0 rfl rfl hpos
    (by intro t ht; omega) (fun t => ⟨"refused", rfl⟩) rfl).2.1
  rw [h]
  rfl

/-! ### Claim C6 -/

/-- C6 (amended): after the reassembly loop aborts at failing chunk `j`, the
loop has received from channels `0 .. j` only; for every later launched chunk
the single send on its unbuffered result channel never completes — the
sending goroutine blocks on it forever — and an undrained buffer wrapped into
such a response is never returned to the pool (`putsForLoan` is 0 for an
undrained wrapped loan), contrary to the claim that resources are released
through the normal buffer-return path. -/
theorem C6_amended (cfg : Config) (presp : Response) (resps : Nat → Response)
    (results : Nat → Except String Response) (rw : RW) (j : Nat) (e : String)
    (hrw : rw.broken = false)
    (hj : j < (chunkRequests cfg.chunkSize presp.contentLength).length)
    (hok : ∀ t, t < j → results t = Except.ok (resps t))
    (hfail : results j = Except.error e) :
    (∃ rwf, handleRefracted cfg (Except.ok presp) results rw = some (rwf, j + 1))
    ∧ (∀ k, j < k → k < (chunkRequests cfg.chunkSize presp.contentLength).length →
        ¬ sendCompletes (j + 1) k)
    ∧ putsForLoan BufFate.wrappedForReturn false = 0 := by
  refine ⟨?_, ?_, rfl⟩
  · have hok0 : ∀ t, t < j → results (0 + t) = Except.ok (resps (0 + t)) := by
      intro t ht
      rw [Nat.zero_add]
      exact hok t ht
    have herr0 : results (0 + j) = Except.error e := by
      rw [Nat.zero_add]
      exact hfail
    have heq := reassemble_fail results resps e j
      ((chunkRequests cfg.chunkSize presp.contentLength).length) 0
      (rw.addHeader "content-length" (toString presp.contentLength))
      (show (RW.addHeader rw "content-length" (toString presp.contentLength)).broken = false from hrw)
      hj hok0 herr0
    exact ⟨_, by simp only [handleRefracted]; rw [heq]⟩
  · intro k hk1 hk2
    simp only [sendCompletes]
    omega

/-- C6 counterexample: a 5-byte resource split in two chunks with the first
chunk failing: the handler returns after receiving from one channel while two
chunks were launched, so the send on channel 1 never completes
(`sendCompletes 1 1` is false) and its resources are never released. -/
theorem C6_counterexample :
    (chunkRequests (Config.mk 3 5).chunkSize presp5.contentLength).length = 2
    ∧ handleRefracted ⟨3, 5⟩ (Except.ok presp5)
        (fun i => if i = 0 then Except.error "boom" else Except.ok respB) rw00
      = some ({ rw00 with headers := [("content-length", "5")], committed := some 500 }, 1)
    ∧ ¬ sendCompletes 1 1 := by
  have hlen : (chunkRequests (Config.mk 3 5).chunkSize presp5.contentLength).length = 2 :=
    chunkRequests_3_5_length
  refine ⟨hlen, ?_, by simp [sendCompletes]⟩
  simp only [handleRefracted]
  rw [hlen]
  rfl

/-- Witness for C6's amended theorem: two chunks, chunk 0 failing. -/
theorem C6_witness :
    (0 : Nat) < (chunkRequests (Config.mk 3 5).chunkSize presp5.contentLength).length
    ∧ (∃ rwf, handleRefracted ⟨3, 5⟩ (Except.ok presp5)
        (fun i => if i = 0 then Except.error "boom" else Except.ok respB) rw00 = some (rwf, 1))
    ∧ ¬ sendCompletes 1 1 := by
  have hlen : (chunkRequests (Config.mk 3 5).chunkSize presp5.contentLength).length = 2 :=
    chunkRequests_3_5_length
  have hpos : (0 : Nat) < (chunkRequests (Config.mk 3 5).chunkSize presp5.contentLength).length := by
    rw [hlen]
    decide
  have h := C6_amended ⟨3, 5⟩ presp5 (fun _ => respB)
    (fun i => if i = 0 then Except.error "boom" else Except.ok respB) rw00 0 "boom"
    rfl hpos (by intro t ht; omega) rfl
  exact ⟨hpos, h.1, h.2.1 1 (by decide) (by rw [hlen]; decide)⟩

/-! ### Claim C10 -/

/-- C10 (confirmed): when the probe response declares a non-positive content
length (zero, or −1 for unknown), `handleRefracted` launches zero chunk
fetches, sets the client `content-length` header to that declared value
verbatim, writes no body bytes, and the client observes status 200. -/
theorem C10_empty_resource (cfg : Config) (presp : Response)
    (results : Nat → Except String Response) (rw : RW)
    (hL : presp.contentLength ≤ 0) (hcom : rw.committed = none) :
    chunkRequests cfg.chunkSize presp.contentLength = []
    ∧ handleRefracted cfg (Except.ok presp) results rw
        = some (rw.addHeader "content-length" (toString presp.contentLength), 0)
    ∧ clientStatus (rw.addHeader "content-length" (toString presp.contentLength)) = 200
    ∧ (rw.addHeader "content-length" (toString presp.contentLength)).bodyOut = rw.bodyOut := by
  have hnil : chunks cfg.chunkSize presp.contentLength = [] := by
    unfold chunks
    exact chunksFrom_neg (by omega)
  have hreq : chunkRequests cfg.chunkSize presp.contentLength = [] := by
    rw [chunkRequests, hnil]
    rfl
  refine ⟨hreq, ?_, ?_, rfl⟩
  · simp only [handleRefracted, hreq]
    rfl
  · simp [clientStatus, RW.addHeader, hcom]

/-- Witness for C10 at content length −1. -/
theorem C10_witness :
    ((-1 : Int) ≤ 0)
    ∧ chunkRequests 4194304 (-1) = []
    ∧ handleRefracted ⟨4194304, 5⟩ (Except.ok prespUnknown) (fun _ => Except.error "x") rw00
        = some (rw00.addHeader "content-length" "-1", 0)
    ∧ clientStatus (rw00.addHeader "content-length" "-1") = 200 := by
  have h := C10_empty_resource ⟨4194304, 5⟩ prespUnknown (fun _ => Except.error "x") rw00
    (by decide) rfl
  exact ⟨by decide, h.1, h.2.1, h.2.2.1⟩

/-! ### Claim C5 -/

/-- C5 (amended): whenever an attempt acquires a pooled buffer it resets it
before any bytes are written into it; on the success path the buffer is
wrapped for return and `Put` exactly once, only after the consumer fully
drains the body; but on the copy-error and truncation-error paths the
acquired buffer is abandoned — `request` returns without arranging any
return, so "returned to the pool exactly once per loan" fails on those error
paths. -/
theorem C5_amended (r : Request) (u : Except String UpstreamResponse) :
    resetBeforeWrites (request r u).bufTrace = true
    ∧ ((request r u).bufFate = BufFate.notAcquired → (request r u).bufTrace = [])
    ∧ ((request r u).bufFate = BufFate.wrappedForReturn →
        putsForLoan (request r u).bufFate true = 1 ∧ putsForLoan (request r u).bufFate false = 0)
    ∧ ((request r u).bufFate = BufFate.abandoned →
        (∃ e, (request r u).result = Except.error e)
        ∧ ∀ d, putsForLoan (request r u).bufFate d = 0) := by
  cases u with
  | error e =>
    exact ⟨rfl, fun _ => rfl, fun h => absurd h (by simp [request]),
      fun h => absurd h (by simp [request])⟩
  | ok resp =>
    by_cases hs : resp.statusCode ≠ expectedStatus r
    · have hq : request r (Except.ok resp) = { result := Except.error ("got status " ++ toString resp.statusCode ++ ", expected " ++ toString (expectedStatus r)), bodyClosed := true, bufFate := BufFate.notAcquired, bufTrace := [] } := by
        simp [request, hs]
      rw [hq]
      exact ⟨rfl, fun _ => rfl, fun h => absurd h (by simp), fun h => absurd h (by simp)⟩
    · by_cases hm : r.method = Method.HEAD
      · have hq : request r (Except.ok resp) = { result := Except.ok { statusCode := resp.statusCode, contentLength := resp.contentLength, body := [], buffered := false }, bodyClosed := true, bufFate := BufFate.notAcquired, bufTrace := [] } := by
          simp [request, hs, hm]
        rw [hq]
        exact ⟨rfl, fun _ => rfl, fun h => absurd h (by simp), fun h => absurd h (by simp)⟩
      · cases hb : resp.bodyRead with
        | error e =>
          have hq : request r (Except.ok resp) = { result := Except.error e, bodyClosed := true, bufFate := BufFate.abandoned, bufTrace := [BufEvent.get, BufEvent.reset] } := by
            simp [request, hs, hm, hb]
          rw [hq]
          exact ⟨rfl, fun h => absurd h (by simp), fun h => absurd h (by simp),
            fun _ => ⟨⟨e, rfl⟩, fun d => rfl⟩⟩
        | ok bs =>
          by_cases hlen : (bs.length : Int) ≠ resp.contentLength
          · have hq : request r (Except.ok resp) = { result := Except.error ("expected to read bytes " ++ toString resp.contentLength ++ " but read " ++ toString bs.length ++ " instead"), bodyClosed := true, bufFate := BufFate.abandoned, bufTrace := [BufEvent.get, BufEvent.reset, BufEvent.write bs.length] } := by
              simp [request, hs, hm, hb, hlen]
            rw [hq]
            exact ⟨rfl, fun h => absurd h (by simp), fun h => absurd h (by simp),
              fun _ => ⟨⟨_, rfl⟩, fun d => rfl⟩⟩
          · have hq : request r (Except.ok resp) = { result := Except.ok { statusCode := resp.statusCode, contentLength := resp.contentLength, body := bs, buffered := true }, bodyClosed := true, bufFate := BufFate.wrappedForReturn, bufTrace := [BufEvent.get, BufEvent.reset, BufEvent.write bs.length] } := by
              simp [request, hs, hm, hb, hlen]
            rw [hq]
            exact ⟨rfl, fun h => absurd h (by simp), fun _ => ⟨rfl, rfl⟩,
              fun h => absurd h (by simp)⟩

/-- C5 counterexample: a truncated GET attempt (3 bytes read, 5 declared)
acquires a buffer (`get` appears in its trace) yet abandons the loan — zero
returns to the pool, drained or not — so the buffer is not returned exactly
once per loan on this error path. -/
theorem C5_counterexample :
    (request plainRequestFor (Except.ok { statusCode := 200, contentLength := 5, bodyRead := Except.ok [1, 2, 3] })).bufTrace
      = [BufEvent.get, BufEvent.reset, BufEvent.write 3]
    ∧ (request plainRequestFor (Except.ok { statusCode := 200, contentLength := 5, bodyRead := Except.ok [1, 2, 3] })).bufFate
      = BufFate.abandoned
    ∧ (∀ d, putsForLoan BufFate.abandoned d = 0) :=
  ⟨rfl, rfl, fun d => rfl⟩

/-- Witness for C5's amended theorem at the truncated attempt above. -/
theorem C5_witness :
    (request plainRequestFor (Except.ok { statusCode := 200, contentLength := 5, bodyRead := Except.ok [1, 2, 3] })).bufFate
      = BufFate.abandoned
    ∧ (∃ e, (request plainRequestFor (Except.ok { statusCode := 200, contentLength := 5, bodyRead := Except.ok [1, 2, 3] })).result = Except.error e) := by
  have h := (C5_amended plainRequestFor
    (Except.ok { statusCode := 200, contentLength := 5, bodyRead := Except.ok [1, 2, 3] })).2.2.2 rfl
  exact ⟨rfl, h.1⟩

/-! ### Claim C7 -/

/-- C7 (amended): `ServeHTTP` classifies by the suffix of the full serialised
URL `r.URL.String()` — the path plus `?query` when a query string is present —
which coincides with the path suffix exactly when the query is empty: a
`.db.sig` suffix answers 404 consulting no upstream input; a `.db` suffix
dispatches to the single-stream fetcher, whose request is an un-ranged GET
expecting status 200 and whose fetch failure answers 502 Bad Gateway; any
other suffix dispatches to the parallel chunked fetcher. -/
theorem C7_amended (p q : String) (cfg : Config) (rw : RW)
    (plain1 plain2 probe1 probe2 : Except String Response)
    (res1 res2 : Nat → Except String Response) (e : String) :
    (q = "" → urlString p q = p)
    ∧ (goHasSuffix (urlString p q) ".db.sig" = true →
        route p q = Route.notFound
        ∧ serveHTTP p q cfg plain1 probe1 res1 rw = some (rw.writeHeader 404)
        ∧ serveHTTP p q cfg plain1 probe1 res1 rw = serveHTTP p q cfg plain2 probe2 res2 rw)
    ∧ (goHasSuffix (urlString p q) ".db.sig" = false →
        goHasSuffix (urlString p q) ".db" = true →
        route p q = Route.plain
        ∧ serveHTTP p q cfg plain1 probe1 res1 rw = some (handlePlain plain1 rw)
        ∧ handlePlain (Except.error e) rw = rw.writeHeader 502
        ∧ plainRequestFor.method = Method.GET
        ∧ plainRequestFor.rangeHeader = none
        ∧ expectedStatus plainRequestFor = 200)
    ∧ (goHasSuffix (urlString p q) ".db.sig" = false →
        goHasSuffix (urlString p q) ".db" = false →
        route p q = Route.refracted
        ∧ serveHTTP p q cfg plain1 probe1 res1 rw
            = (handleRefracted cfg probe1 res1 rw).map Prod.fst) := by
  refine ⟨?_, ?_, ?_, ?_⟩
  · intro h
    simp [urlString, h]
  · intro h
    have hr : route p q = Route.notFound := by simp [route, h]
    exact ⟨hr, by simp [serveHTTP, hr], by simp [serveHTTP, hr]⟩
  · intro h1 h2
    have hr : route p q = Route.plain := by simp [route, h1, h2]
    exact ⟨hr, by simp [serveHTTP, hr], rfl, rfl, rfl, rfl⟩
  · intro h1 h2
    have hr : route p q = Route.refracted := by simp [route, h1, h2]
    exact ⟨hr, by simp [serveHTTP, hr]⟩

/-- C7 counterexample: a request whose path ends in neither special suffix but
whose query string ends in `.db.sig` is classified by the URL-string suffix
and routed to the 404 branch — not to the parallel chunked fetcher the
path-suffix claim prescribes. -/
theorem C7_counterexample :
    goHasSuffix "/core/pkg" ".db.sig" = false
    ∧ goHasSuffix "/core/pkg" ".db" = false
    ∧ route "/core/pkg" "key=.db.sig" = Route.notFound
    ∧ Route.notFound ≠ Route.refracted := by
  exact ⟨by decide, by decide, by decide, by decide⟩

/-- Witness for C7's amended theorem on three concrete query-free URLs. -/
theorem C7_witness :
    goHasSuffix (urlString "/x/core.db.sig" "") ".db.sig" = true
    ∧ route "/x/core.db.sig" "" = Route.notFound
    ∧ goHasSuffix (urlString "/x/core.db" "") ".db.sig" = false
    ∧ goHasSuffix (urlString "/x/core.db" "") ".db" = true
    ∧ route "/x/core.db" "" = Route.plain
    ∧ goHasSuffix (urlString "/x/pkg.zst" "") ".db.sig" = false
    ∧ goHasSuffix (urlString "/x/pkg.zst" "") ".db" = false
    ∧ route "/x/pkg.zst" "" = Route.refracted := by
  have h1 := (C7_amended "/x/core.db.sig" "" ⟨3, 5⟩ rw00 (Except.error "a") (Except.error "b")
    (Except.error "c") (Except.error "d") (fun _ => Except.error "e") (fun _ => Except.error "f")
    "g").2.1 (by decide)
  have h2 := (C7_amended "/x/core.db" "" ⟨3, 5⟩ rw00 (Except.error "a") (Except.error "b")
    (Except.error "c") (Except.error "d") (fun _ => Except.error "e") (fun _ => Except.error "f")
    "g").2.2.1 (by decide) (by decide)
  have h3 := (C7_amended "/x/pkg.zst" "" ⟨3, 5⟩ rw00 (Except.error "a") (Except.error "b")
    (Except.error "c") (Except.error "d") (fun _ => Except.error "e") (fun _ => Except.error "f")
    "g").2.2.2 (by decide) (by decide)
  exact ⟨by decide, h1.1, by decide, by decide, h2.1, by decide, by decide, h3.1⟩

/-! ### Claim C8 -/

/-- C8 (confirmed): an attempt expects status 200 when the outgoing request
carries no range header and 206 when it does; when the returned status
differs from the expected status, the attempt fails with the status-mismatch
error, the response body is closed, and no buffer is acquired for that
attempt. -/
theorem C8_status_validation (r : Request) (resp : UpstreamResponse)
    (hs : resp.statusCode ≠ expectedStatus r) :
    expectedStatus r = (if r.rangeHeader.isSome then 206 else 200)
    ∧ request r (Except.ok resp)
        = { result := Except.error ("got status " ++ toString resp.statusCode ++ ", expected " ++ toString (expectedStatus r)), bodyClosed := true, bufFate := BufFate.notAcquired, bufTrace := [] } := by
  refine ⟨rfl, ?_⟩
  simp [request, hs]

/-- Witness for C8: a ranged GET answered with 200 instead of 206. -/
theorem C8_witness :
    (200 : Nat) ≠ expectedStatus { method := Method.GET, rangeHeader := some (0, 5), acceptEncodingIdentity := true }
    ∧ request { method := Method.GET, rangeHeader := some (0, 5), acceptEncodingIdentity := true }
        (Except.ok { statusCode := 200, contentLength := 10, bodyRead := Except.ok [] })
      = { result := Except.error ("got status " ++ toString (200 : Nat) ++ ", expected " ++ toString (206 : Nat)), bodyClosed := true, bufFate := BufFate.notAcquired, bufTrace := [] } := by
  refine ⟨by decide, ?_⟩
  exact (C8_status_validation
    { method := Method.GET, rangeHeader := some (0, 5), acceptEncodingIdentity := true }
    { statusCode := 200, contentLength := 10, bodyRead := Except.ok [] } (by decide)).2

/-! ### Claim C9 -/

/-- C9 (confirmed): a non-HEAD attempt that reaches the body-copy step fails
with the truncation error when the number of bytes copied differs from the
declared content length — and a failed attempt is retried while tries remain
(`retryAux` steps to the next attempt) — while on a matching count the
attempt succeeds with the body replaced by the buffer-backed reader carrying
the completion callback (`buffered = true`, fate `wrappedForReturn`). -/
theorem C9_truncation_and_buffering (r : Request) (resp : UpstreamResponse) (bs : List Nat)
    (atts : Nat → Except String Response) (i l : Nat)
    (hm : r.method ≠ Method.HEAD)
    (hst : resp.statusCode = expectedStatus r)
    (hb : resp.bodyRead = Except.ok bs) :
    ((bs.length : Int) ≠ resp.contentLength →
      request r (Except.ok resp)
        = { result := Except.error ("expected to read bytes " ++ toString resp.contentLength ++ " but read " ++ toString bs.length ++ " instead"), bodyClosed := true, bufFate := BufFate.abandoned, bufTrace := [BufEvent.get, BufEvent.reset, BufEvent.write bs.length] }
      ∧ (atts i = (request r (Except.ok resp)).result →
          retryAux atts i (l + 1) = retryAux atts (i + 1) l))
    ∧ ((bs.length : Int) = resp.contentLength →
      request r (Except.ok resp)
        = { result := Except.ok { statusCode := resp.statusCode, contentLength := resp.contentLength, body := bs, buffered := true }, bodyClosed := true, bufFate := BufFate.wrappedForReturn, bufTrace := [BufEvent.get, BufEvent.reset, BufEvent.write bs.length] }) := by
  constructor
  · intro hlen
    have hq : request r (Except.ok resp) = { result := Except.error ("expected to read bytes " ++ toString resp.contentLength ++ " but read " ++ toString bs.length ++ " instead"), bodyClosed := true, bufFate := BufFate.abandoned, bufTrace := [BufEvent.get, BufEvent.reset, BufEvent.write bs.length] } := by
      simp [request, hst, hm, hb, hlen]
    refine ⟨hq, ?_⟩
    intro hat
    rw [hq] at hat
    exact retryAux_error_step atts i l _ hat
  · intro hlen
    simp [request, hst, hm, hb, hlen]

/-- Witness for C9: the truncated attempt (3 of 5 bytes) fails with the
truncation error and the retry engine proceeds to the next attempt. -/
theorem C9_witness :
    ((3 : Int) ≠ (5 : Int))
    ∧ request plainRequestFor (Except.ok { statusCode := 200, contentLength := 5, bodyRead := Except.ok [1, 2, 3] })
      = { result := Except.error ("expected to read bytes " ++ toString (5 : Int) ++ " but read " ++ toString (3 : Nat) ++ " instead"), bodyClosed := true, bufFate := BufFate.abandoned, bufTrace := [BufEvent.get, BufEvent.reset, BufEvent.write 3] } := by
  refine ⟨by decide, ?_⟩
  exact ((C9_truncation_and_buffering plainRequestFor
    { statusCode := 200, contentLength := 5, bodyRead := Except.ok [1, 2, 3] } [1, 2, 3]
    (fun _ => Except.error "x") 0 0 (by decide) rfl rfl).1 (by decide)).1

end Refractor
